import Mathlib

set_option maxRecDepth 40000

/-!
Verification development for `pysnake_game/snake_game.py`.

The game state and the operations of the main loop are embedded shallowly:

* a cell is the `(x, y)` pixel pair of an `SDL_Rect`;
* randomness (`random.randint` draws, apple resampling) is passed in
  explicitly, as integer draws or as a stream `ℕ → Cell` of sampled cells;
* the unbounded apple-relocation `while` loop is given explicit fuel and
  returns `none` when the fuel runs out;
* one pass of the simulation part of the main loop (snake_game.py
  lines 410-531: move head, apple/win branch, body update, collision
  flags) is the function `tick`.
-/

/-- Pixel position of a rectangle on the board: the `(x, y)` of an `SDL_Rect`. -/
abbrev Cell := ℤ × ℤ

/-- The four headings, written as the strings "UP"/"DOWN"/"LEFT"/"RIGHT" in
snake_game.py. -/
inductive Direction
  | UP
  | DOWN
  | LEFT
  | RIGHT
  deriving DecidableEq, Repr

/-- Constant `window_width = 250` (snake_game.py line 270). -/
def window_width : ℤ := 250

/-- Constant `window_height = 200` (snake_game.py line 271). -/
def window_height : ℤ := 200

/-- Constant `status_height = 30` (snake_game.py line 272). -/
def status_height : ℤ := 30

/-- Constant `cell_size = 10` (snake_game.py line 273). -/
def cell_size : ℤ := 10

/-- Constant `snake_initial_size = 3` (snake_game.py line 283). -/
def snake_initial_size : ℕ := 3

/-- The `opposite_directions` table inside `initial_direction`
(snake_game.py lines 152-157). -/
def opposite : Direction → Direction
  | .UP => .DOWN
  | .DOWN => .UP
  | .LEFT => .RIGHT
  | .RIGHT => .LEFT

/-- Head translation by one cell in the current direction
(snake_game.py lines 411-420). -/
def move_head (d : Direction) (c : Cell) : Cell :=
  match d with
  | .UP => (c.1, c.2 - cell_size)
  | .DOWN => (c.1, c.2 + cell_size)
  | .LEFT => (c.1 - cell_size, c.2)
  | .RIGHT => (c.1 + cell_size, c.2)

/-- Function `generate_random_position` (snake_game.py lines 36-54).  The two
`random.randint` draws are passed explicitly as `r1`, `r2`; the source
multiplies each draw by `cell_size` and then clamps the result from below by
`min_x` resp. `min_y`.  `width`/`height` only bound the draws, see
`rand_in_range`. -/
def generate_random_position (cellSize width height minX minY r1 r2 : ℤ) : Cell :=
  (if r1 * cellSize < minX then minX else r1 * cellSize,
   if r2 * cellSize < minY then minY else r2 * cellSize)

/-- The ranges of the two `random.randint` calls in `generate_random_position`
(snake_game.py lines 51-52): `randint(a, b)` draws from `[a, b]` inclusive. -/
def rand_in_range (cellSize width height minX minY r1 r2 : ℤ) : Prop :=
  minX / cellSize ≤ r1 ∧ r1 ≤ width / cellSize - 1 ∧
  minY / cellSize ≤ r2 ∧ r2 ≤ height / cellSize - 1

/-- Function `initialize_snake` (snake_game.py lines 89-110): one random
position is drawn and the list repeats that same rectangle `size` times. -/
def initialize_snake (cellSize width height : ℤ) (size : ℕ) (minX minY r1 r2 : ℤ) :
    List Cell :=
  List.replicate size (generate_random_position cellSize width height minX minY r1 r2)

/-- Function `initialize_apple` (snake_game.py lines 113-129). -/
def initialize_apple (cellSize width height minX minY r1 r2 : ℤ) : Cell :=
  generate_random_position cellSize width height minX minY r1 r2

/-- The cell list of `initialize_grid(cell_size, window_width, window_height,
min_y=status_height)` (snake_game.py lines 67-86, call at line 322): `x` runs
over `range(0, 250, 10)` (25 columns, outer loop) and `y` over
`range(30, 200, 10)` (17 rows, inner loop). -/
def grid_cells : List Cell :=
  (List.range 25).flatMap
    (fun (i : ℕ) => (List.range 17).map
      (fun (j : ℕ) => (((10 * i : ℕ) : ℤ), ((30 + 10 * j : ℕ) : ℤ))))

/-- Python's keyed `min` over an already-keyed list: fold that keeps the
current best and replaces it only on a strictly smaller key, so the first
element attaining the minimum wins, as CPython's `min` does. -/
def py_min_fold (init : Direction × ℤ) (l : List (Direction × ℤ)) : Direction × ℤ :=
  l.foldl (fun best p => if p.2 < best.2 then p else best) init

/-- Function `initial_direction` (snake_game.py lines 132-158): distances of
the head to the four window sides in the dict insertion order UP, DOWN, LEFT,
RIGHT, `min` by value, then the opposite direction. -/
def initial_direction (hx hy width height : ℤ) : Direction :=
  opposite (py_min_fold (Direction.UP, hy)
    [(Direction.DOWN, height - hy), (Direction.LEFT, hx),
     (Direction.RIGHT, width - hx)]).1

/-- The direction-key handling of the event loop (snake_game.py lines
401-408): an elif chain that ignores a request equal to the reverse of the
current heading. -/
def apply_direction (cur req : Direction) : Direction :=
  if req = Direction.UP ∧ cur ≠ Direction.DOWN then Direction.UP
  else if req = Direction.DOWN ∧ cur ≠ Direction.UP then Direction.DOWN
  else if req = Direction.LEFT ∧ cur ≠ Direction.RIGHT then Direction.LEFT
  else if req = Direction.RIGHT ∧ cur ≠ Direction.LEFT then Direction.RIGHT
  else cur

/-- Function `log_record` (snake_game.py lines 209-226): the returned record,
plus whether the persisted store was written (the `json.dump` branch). -/
def log_record (record snake_size : ℤ) : ℤ × Bool :=
  if snake_size > record then (snake_size, true) else (record, false)

/-- The `window_collision` test (snake_game.py lines 524-529). -/
def window_collision (c : Cell) : Bool :=
  decide (c.1 < 0) || decide (c.1 ≥ window_width) ||
  decide (c.2 < status_height) || decide (c.2 ≥ window_height)

/-- The mutable state a tick of the main loop reads and writes: the snake
body head-first, the apple rectangle, and the current heading. -/
structure GameState where
  snake : List Cell
  apple : Cell
  dir : Direction
  deriving DecidableEq, Repr

/-- Result of one tick: either the win branch was taken (snake_game.py lines
437-508, the body is left as it was and the loop `continue`s), or the body
was updated and the self/window collision flag computed. -/
inductive TickOutcome
  | won (finalSnake : List Cell)
  | step (st : GameState) (lost : Bool)
  deriving DecidableEq, Repr

/-- The apple relocation loop (snake_game.py lines 424-436): a candidate cell
is sampled (stream index `i`), and resampled while it lies on the snake.
`fuel` bounds the number of candidates inspected; `none` means the loop was
still running when the fuel ran out. -/
def relocate_apple (snake : List Cell) (stream : ℕ → Cell) : ℕ → ℕ → Option Cell
  | _, 0 => none
  | i, fuel + 1 =>
    if stream i ∈ snake then relocate_apple snake stream (i + 1) fuel
    else some (stream i)

/-- One iteration of the simulation part of the main loop (snake_game.py
lines 410-531):

* the new head is the old head moved one cell along the heading;
* if it equals the apple cell, the apple is resampled; when
  `len(snake) < len(grid)` the resampling repeats while the candidate lies on
  the (pre-insertion) snake, otherwise the win branch runs and `continue`
  skips the body update;
* otherwise the tail is popped (line 510) FIRST;
* the new head is inserted at index 0 (line 513) and the self-collision flag
  compares the new head against `snake[1:]` of the updated list
  (lines 519-521), the window flag against the bounds (lines 524-529). -/
def tick (st : GameState) (stream : ℕ → Cell) (fuel : ℕ) : Option TickOutcome :=
  if move_head st.dir st.snake.headI = st.apple then
    if st.snake.length < grid_cells.length then
      (relocate_apple st.snake stream 0 fuel).map (fun a =>
        TickOutcome.step
          ⟨move_head st.dir st.snake.headI :: st.snake, a, st.dir⟩
          (decide (move_head st.dir st.snake.headI ∈ st.snake) ||
            window_collision (move_head st.dir st.snake.headI)))
    else some (TickOutcome.won st.snake)
  else
    some (TickOutcome.step
      ⟨move_head st.dir st.snake.headI :: st.snake.dropLast, st.apple, st.dir⟩
      (decide (move_head st.dir st.snake.headI ∈ st.snake.dropLast) ||
        window_collision (move_head st.dir st.snake.headI)))

/-- The elapsed-time formula of the status bar (snake_game.py line 628). -/
def elapsed_time (now startTime totalPaused : ℤ) : ℤ :=
  now - startTime - totalPaused

/-- The session data written by the restart branch of the game-over screen. -/
structure RestartResult where
  state : GameState
  startTime : ℤ
  totalPaused : ℤ
  deriving DecidableEq, Repr

/-- The restart branch of the LOST screen (snake_game.py lines 590-604): a
fresh snake and apple are drawn (draws `r1 r2` and `r3 r4`), the direction is
recomputed from the new head, `start_time` is set to the current clock, and -
unlike the win-restart branch at line 507 - `total_paused_time` is NOT
reset. -/
def restart_from_lost (r1 r2 r3 r4 now totalPaused : ℤ) : RestartResult :=
  ⟨⟨initialize_snake cell_size window_width window_height snake_initial_size
        0 status_height r1 r2,
    initialize_apple cell_size window_width window_height 0 status_height r3 r4,
    initial_direction
      (initialize_snake cell_size window_width window_height snake_initial_size
          0 status_height r1 r2).headI.1
      (initialize_snake cell_size window_width window_height snake_initial_size
          0 status_height r1 r2).headI.2
      window_width window_height⟩,
   now, totalPaused⟩

/-- Modelled from the spec: `collided(new_head)` is true if the new head
equals any existing body cell, "checked against the body INCLUDING the
about-to-be-removed tail", or lies outside the bounds. -/
def collided_spec (body : List Cell) (nh : Cell) : Prop :=
  nh ∈ body ∨ window_collision nh = true

/-- Distance of a head position to each of the four WINDOW edges, the
quantities `initial_direction` actually compares. -/
def window_distance (hx hy : ℤ) : Direction → ℤ
  | .UP => hy
  | .DOWN => window_height - hy
  | .LEFT => hx
  | .RIGHT => window_width - hx

/-- Modelled from the spec: distance of a head position to each of the four
ARENA edges, the arena being the sub-rectangle below the status bar. -/
def arena_distance (hx hy : ℤ) : Direction → ℤ
  | .UP => hy - status_height
  | .DOWN => window_height - hy
  | .LEFT => hx
  | .RIGHT => window_width - hx

/-- Modelled from the spec: the initial direction is the opposite of the
arena edge the head is closest to. -/
def initial_direction_spec (hx hy : ℤ) : Direction :=
  opposite (py_min_fold (Direction.UP, hy - status_height)
    [(Direction.DOWN, window_height - hy), (Direction.LEFT, hx),
     (Direction.RIGHT, window_width - hx)]).1

/-- A snake occupying every grid cell except `(240, 190)`, with its head at
`(230, 190)`: the state one eat before a completely full board. -/
def near_full_snake : List Cell :=
  ((230 : ℤ), (190 : ℤ)) ::
    grid_cells.filter (fun c =>
      !decide (c = (((240 : ℤ), (190 : ℤ)) : Cell)) &&
      !decide (c = (((230 : ℤ), (190 : ℤ)) : Cell)))

/-- Helper: a list of distinct elements of `big` that misses some element of
`big` is strictly shorter than `big`. -/
theorem length_lt_of_nodup_subset {α : Type} [DecidableEq α] (l big : List α) (a : α)
    (hnd : l.Nodup) (hsub : ∀ c ∈ l, c ∈ big) (ha : a ∈ big) (hal : a ∉ l) :
    l.length < big.length := by
  have hnd' : (a :: l).Nodup := List.nodup_cons.mpr ⟨hal, hnd⟩
  have hsub' : (a :: l).toFinset ⊆ big.toFinset := by
    intro x hx
    rw [List.mem_toFinset] at hx ⊢
    rcases List.mem_cons.mp hx with h | h
    · exact h ▸ ha
    · exact hsub x h
  have h1 : (a :: l).length = (a :: l).toFinset.card :=
    (List.toFinset_card_of_nodup hnd').symm
  have h2 : (a :: l).toFinset.card ≤ big.toFinset.card := Finset.card_le_card hsub'
  have h3 : big.toFinset.card ≤ big.length := List.toFinset_card_le big
  simp only [List.length_cons] at h1
  omega

/-- Helper: whatever cell the relocation loop returns is not on the snake. -/
theorem relocate_apple_not_mem (snake : List Cell) (stream : ℕ → Cell) :
    ∀ fuel i c, relocate_apple snake stream i fuel = some c → c ∉ snake := by
  intro fuel
  induction fuel with
  | zero => intro i c h; simp [relocate_apple] at h
  | succ n ih =>
    intro i c h
    by_cases hmem : stream i ∈ snake
    · rw [relocate_apple, if_pos hmem] at h
      exact ih (i + 1) c h
    · rw [relocate_apple, if_neg hmem] at h
      cases h
      exact hmem

/-- Helper: if the stream proposes a free cell at offset `n` past `i`, the
relocation loop started at `i` succeeds with enough fuel. -/
theorem relocate_apple_some_aux (snake : List Cell) (stream : ℕ → Cell) :
    ∀ n i, stream (i + n) ∉ snake →
      ∃ fuel c, relocate_apple snake stream i fuel = some c ∧ c ∉ snake := by
  intro n
  induction n with
  | zero =>
    intro i hfree
    refine ⟨1, stream i, ?_, by simpa using hfree⟩
    simp only [relocate_apple]
    rw [if_neg (by simpa using hfree)]
  | succ m ih =>
    intro i hfree
    by_cases hmem : stream i ∈ snake
    · obtain ⟨fuel, c, hc, hcn⟩ := ih (i + 1) (by
        have : i + 1 + m = i + (m + 1) := by omega
        rw [this]; exact hfree)
      exact ⟨fuel + 1, c, by rw [relocate_apple, if_pos hmem]; exact hc, hcn⟩
    · exact ⟨1, stream i, by rw [relocate_apple, if_neg hmem], hmem⟩

/-- Helper: a constant stream stuck on an occupied cell never leaves the
relocation loop, whatever the fuel. -/
theorem relocate_apple_const_none (snake : List Cell) (c : Cell) (hc : c ∈ snake) :
    ∀ fuel i, relocate_apple snake (fun _ => c) i fuel = none := by
  intro fuel
  induction fuel with
  | zero => intro i; rfl
  | succ n ih => intro i; rw [relocate_apple, if_pos hc]; exact ih (i + 1)

/-- Helper: record returned by a fold of `log_record` never drops below the
starting record. -/
theorem log_record_foldl_le (sizes : List ℤ) :
    ∀ r : ℤ, r ≤ sizes.foldl (fun acc sz => (log_record acc sz).1) r := by
  induction sizes with
  | nil => intro r; exact le_refl r
  | cons a t ih =>
    intro r
    have h1 : r ≤ (log_record r a).1 := by
      unfold log_record
      split <;> simp <;> omega
    calc r ≤ (log_record r a).1 := h1
      _ ≤ t.foldl (fun acc sz => (log_record acc sz).1) (log_record r a).1 := ih _

/-- C7 (confirmed): a requested direction that is the exact opposite of the
current heading is ignored, any other request replaces the heading. -/
theorem apply_direction_opposite_noop (cur req : Direction) :
    apply_direction cur req = if req = opposite cur then cur else req := by
  cases cur <;> cases req <;> rfl

/-- C10 (confirmed): `log_record` returns `max record snake_size`, never less
than the stored record, writes the persisted store exactly when the size
beats the record, and folding it over any sequence of session sizes never
decreases the in-process record. -/
theorem log_record_spec (r s : ℤ) :
    (log_record r s).1 = max r s ∧
    r ≤ (log_record r s).1 ∧
    ((log_record r s).2 = true ↔ r < s) ∧
    ∀ sizes : List ℤ, r ≤ sizes.foldl (fun acc sz => (log_record acc sz).1) r := by
  refine ⟨?_, ?_, ?_, fun sizes => log_record_foldl_le sizes r⟩
  · unfold log_record; split <;> omega
  · unfold log_record; split <;> simp <;> omega
  · unfold log_record; split <;> simp <;> omega

/-- C1 (counterexample): a snake curled in a 2x2 square whose head steps onto
the cell its tail is simultaneously vacating.  The spec's `collided` predicate
(checked against the body including the about-to-be-removed tail) is true, yet
the tick reports no loss, because the source pops the tail (line 510) before
the self-collision check (lines 519-521). -/
theorem collision_check_drops_tail_cex :
    collided_spec
        [((10:ℤ),(30:ℤ)), ((10:ℤ),(40:ℤ)), ((20:ℤ),(40:ℤ)), ((20:ℤ),(30:ℤ))]
        ((20:ℤ),(30:ℤ)) ∧
    tick ⟨[((10:ℤ),(30:ℤ)), ((10:ℤ),(40:ℤ)), ((20:ℤ),(40:ℤ)), ((20:ℤ),(30:ℤ))],
          ((100:ℤ),(100:ℤ)), Direction.RIGHT⟩ (fun _ => ((0:ℤ),(30:ℤ))) 1
      = some (TickOutcome.step
          ⟨[((20:ℤ),(30:ℤ)), ((10:ℤ),(30:ℤ)), ((10:ℤ),(40:ℤ)), ((20:ℤ),(40:ℤ))],
            ((100:ℤ),(100:ℤ)), Direction.RIGHT⟩ false) := by
  constructor
  · exact Or.inl (by decide)
  · decide

/-- C1 (amended): the loss flag of a tick is set iff the new head lies outside
the window bounds or equals a cell of the body the collision check actually
sees: the full pre-move body on an eat tick, and the pre-move body WITHOUT its
tail cell on a non-eat tick (the tail is popped before the check). -/
theorem tick_lost_iff (st : GameState) (stream : ℕ → Cell) (fuel : ℕ)
    (st' : GameState) (lost : Bool)
    (h : tick st stream fuel = some (TickOutcome.step st' lost)) :
    lost = true ↔
      (move_head st.dir st.snake.headI ∈
          (if move_head st.dir st.snake.headI = st.apple then st.snake
           else st.snake.dropLast) ∨
        window_collision (move_head st.dir st.snake.headI) = true) := by
  by_cases heat : move_head st.dir st.snake.headI = st.apple
  · rw [if_pos heat]
    by_cases hlen : st.snake.length < grid_cells.length
    · rcases hrel : relocate_apple st.snake stream 0 fuel with _ | a
      · rw [tick, if_pos heat, if_pos hlen, hrel] at h
        simp at h
      · rw [tick, if_pos heat, if_pos hlen, hrel] at h
        simp only [Option.map_some', Option.some.injEq, TickOutcome.step.injEq] at h
        obtain ⟨_, hl⟩ := h
        rw [← hl]
        simp [Bool.or_eq_true, decide_eq_true_eq]
    · rw [tick, if_pos heat, if_neg hlen] at h
      simp at h
  · rw [if_neg heat]
    rw [tick, if_neg heat] at h
    simp only [Option.some.injEq, TickOutcome.step.injEq] at h
    obtain ⟨_, hl⟩ := h
    rw [← hl]
    simp [Bool.or_eq_true, decide_eq_true_eq]

/-- C1 (witness): the characterization evaluated on a plain straight move with
no collision. -/
theorem tick_lost_iff_witness :
    false = true ↔
      (move_head Direction.RIGHT
          ([((100:ℤ),(100:ℤ)), ((90:ℤ),(100:ℤ))] : List Cell).headI ∈
          (if move_head Direction.RIGHT
              ([((100:ℤ),(100:ℤ)), ((90:ℤ),(100:ℤ))] : List Cell).headI
              = (((200:ℤ),(100:ℤ)) : Cell) then
            [((100:ℤ),(100:ℤ)), ((90:ℤ),(100:ℤ))]
           else ([((100:ℤ),(100:ℤ)), ((90:ℤ),(100:ℤ))] : List Cell).dropLast) ∨
        window_collision (move_head Direction.RIGHT
          ([((100:ℤ),(100:ℤ)), ((90:ℤ),(100:ℤ))] : List Cell).headI) = true) :=
  tick_lost_iff
    ⟨[((100:ℤ),(100:ℤ)), ((90:ℤ),(100:ℤ))], ((200:ℤ),(100:ℤ)), Direction.RIGHT⟩
    (fun _ => ((0:ℤ),(30:ℤ))) 1
    ⟨[((110:ℤ),(100:ℤ)), ((100:ℤ),(100:ℤ))], ((200:ℤ),(100:ℤ)), Direction.RIGHT⟩
    false rfl

/-- Helper: the grid enumeration contains no duplicate cells: distinct columns
have distinct x coordinates, and within a column distinct rows have distinct
y coordinates. -/
theorem grid_cells_nodup : grid_cells.Nodup := by
  rw [grid_cells, List.nodup_flatMap]
  constructor
  · intro i _
    refine List.Nodup.map ?_ (List.nodup_range 17)
    intro a b hab
    simp only [Prod.mk.injEq] at hab
    omega
  · refine (List.pairwise_lt_range 25).imp ?_
    intro a b hlt x hxa hxb
    simp only [List.mem_map] at hxa hxb
    obtain ⟨ja, _, hja⟩ := hxa
    obtain ⟨jb, _, hjb⟩ := hxb
    rw [← hja] at hjb
    simp only [Prod.mk.injEq] at hjb
    omega

/-- Helper: the near-full snake has pairwise distinct cells: its body is a
filter of the duplicate-free grid enumeration, and the filter excludes the
head cell. -/
theorem near_full_snake_nodup : near_full_snake.Nodup := by
  rw [near_full_snake]
  refine List.nodup_cons.mpr ⟨?_, List.Nodup.filter _ grid_cells_nodup⟩
  intro hmem
  have hp := List.of_mem_filter hmem
  simp at hp

set_option maxHeartbeats 4000000 in
/-- C2 (code bug evaluation): one eat before a full board.  The snake covers
every grid cell except `(240, 190)`, the apple sits there and the head eats
it.  After this growth the snake length equals the grid cell count, so per the
spec the win must trigger; the source instead compares the PRE-growth length
`len(snake) < len(grid)` (line 428), takes the relocation branch, and the only
cell the relocation loop can accept is the new head's own cell, leaving the
apple inside the snake body. -/
theorem win_check_off_by_one :
    near_full_snake.length + 1 = grid_cells.length ∧
    near_full_snake.Nodup ∧
    (((240:ℤ),(190:ℤ)) : Cell) ∉ near_full_snake ∧
    tick ⟨near_full_snake, ((240:ℤ),(190:ℤ)), Direction.RIGHT⟩
        (fun _ => ((240:ℤ),(190:ℤ))) 1
      = some (TickOutcome.step
          ⟨((240:ℤ),(190:ℤ)) :: near_full_snake, ((240:ℤ),(190:ℤ)),
            Direction.RIGHT⟩ false) ∧
    (((240:ℤ),(190:ℤ)) : Cell) ∈ (((240:ℤ),(190:ℤ)) : Cell) :: near_full_snake := by
  refine ⟨by decide, near_full_snake_nodup, by decide, by decide,
    List.mem_cons_self _ _⟩

/-- C3 (counterexample): an eat tick on a non-full board where the relocation
loop's very first candidate is the cell the new head is about to occupy.  The
loop only checks candidates against the PRE-insertion body, so it accepts the
cell, and immediately after the relocation the apple lies inside the
post-insertion snake body. -/
theorem relocated_apple_in_body_cex :
    tick ⟨[((50:ℤ),(100:ℤ)), ((40:ℤ),(100:ℤ))], ((60:ℤ),(100:ℤ)), Direction.RIGHT⟩
        (fun _ => ((60:ℤ),(100:ℤ))) 1
      = some (TickOutcome.step
          ⟨[((60:ℤ),(100:ℤ)), ((50:ℤ),(100:ℤ)), ((40:ℤ),(100:ℤ))],
            ((60:ℤ),(100:ℤ)), Direction.RIGHT⟩ false) ∧
    (((60:ℤ),(100:ℤ)) : Cell)
      ∈ [((60:ℤ),(100:ℤ)), ((50:ℤ),(100:ℤ)), ((40:ℤ),(100:ℤ))] ∧
    ([((50:ℤ),(100:ℤ)), ((40:ℤ),(100:ℤ))] : List Cell).length < grid_cells.length := by
  refine ⟨by decide, by decide, by decide⟩

/-- C3 (amended): immediately after an apple relocation the apple's cell is
not inside the snake body AS IT STOOD WHEN THE LOOP RAN, i.e. the pre-insertion
body; the relocated apple may coincide with the newly inserted head cell. -/
theorem relocated_apple_avoids_preinsert_body (st : GameState) (stream : ℕ → Cell)
    (fuel : ℕ) (st' : GameState) (lost : Bool)
    (heat : move_head st.dir st.snake.headI = st.apple)
    (h : tick st stream fuel = some (TickOutcome.step st' lost)) :
    st'.apple ∉ st.snake := by
  by_cases hlen : st.snake.length < grid_cells.length
  · rcases hrel : relocate_apple st.snake stream 0 fuel with _ | a
    · rw [tick, if_pos heat, if_pos hlen, hrel] at h
      simp at h
    · rw [tick, if_pos heat, if_pos hlen, hrel] at h
      simp only [Option.map_some', Option.some.injEq, TickOutcome.step.injEq] at h
      obtain ⟨hst, _⟩ := h
      rw [← hst]
      exact relocate_apple_not_mem st.snake stream fuel 0 a hrel
  · rw [tick, if_pos heat, if_neg hlen] at h
    simp at h

/-- C3 (witness): an eat tick whose relocation draws the free cell `(0, 30)`;
the theorem places the relocated apple off the pre-insertion body. -/
theorem relocated_apple_avoids_preinsert_body_witness :
    (((0:ℤ),(30:ℤ)) : Cell) ∉ ([((100:ℤ),(100:ℤ)), ((90:ℤ),(100:ℤ))] : List Cell) :=
  relocated_apple_avoids_preinsert_body
    ⟨[((100:ℤ),(100:ℤ)), ((90:ℤ),(100:ℤ))], ((110:ℤ),(100:ℤ)), Direction.RIGHT⟩
    (fun _ => ((0:ℤ),(30:ℤ))) 1
    ⟨[((110:ℤ),(100:ℤ)), ((100:ℤ),(100:ℤ)), ((90:ℤ),(100:ℤ))], ((0:ℤ),(30:ℤ)),
      Direction.RIGHT⟩
    false rfl (by decide)

/-- C4 (confirmed): on any tick of a live session (non-empty, duplicate-free,
in-grid body; in-grid apple not on the body) that updates the body: if the new
head equals the apple cell the body grows by exactly one and its new head is
the pre-tick apple cell, otherwise the body length is unchanged.  The session
invariants force `len(snake) < len(grid)`, so the win branch cannot preempt
the growth. -/
theorem tick_eat_grows_by_one (st : GameState) (stream : ℕ → Cell) (fuel : ℕ)
    (st' : GameState) (lost : Bool)
    (hne : st.snake ≠ [])
    (hnd : st.snake.Nodup)
    (hgrid : ∀ c ∈ st.snake, c ∈ grid_cells)
    (happle : st.apple ∈ grid_cells)
    (hfree : st.apple ∉ st.snake)
    (h : tick st stream fuel = some (TickOutcome.step st' lost)) :
    (move_head st.dir st.snake.headI = st.apple →
      st'.snake.length = st.snake.length + 1 ∧ st'.snake.headI = st.apple) ∧
    (move_head st.dir st.snake.headI ≠ st.apple →
      st'.snake.length = st.snake.length) := by
  have hlen : st.snake.length < grid_cells.length :=
    length_lt_of_nodup_subset st.snake grid_cells st.apple hnd hgrid happle hfree
  by_cases heat : move_head st.dir st.snake.headI = st.apple
  · refine ⟨fun _ => ?_, fun hneq => absurd heat hneq⟩
    rcases hrel : relocate_apple st.snake stream 0 fuel with _ | a
    · rw [tick, if_pos heat, if_pos hlen, hrel] at h
      simp at h
    · rw [tick, if_pos heat, if_pos hlen, hrel] at h
      simp only [Option.map_some', Option.some.injEq, TickOutcome.step.injEq] at h
      obtain ⟨hst, _⟩ := h
      rw [← hst]
      exact ⟨by simp, heat⟩
  · refine ⟨fun heq => absurd heq heat, fun _ => ?_⟩
    rw [tick, if_neg heat] at h
    simp only [Option.some.injEq, TickOutcome.step.injEq] at h
    obtain ⟨hst, _⟩ := h
    rw [← hst]
    have hpos : 0 < st.snake.length := List.length_pos.mpr hne
    simp [List.length_dropLast]
    omega

/-- C4 (witness): a three-cell snake eating the apple directly to its right;
the body update yields length four with the old apple cell as head. -/
theorem tick_eat_grows_by_one_witness :
    ([((60:ℤ),(100:ℤ)), ((50:ℤ),(100:ℤ)), ((40:ℤ),(100:ℤ)), ((40:ℤ),(110:ℤ))] :
        List Cell).length
      = ([((50:ℤ),(100:ℤ)), ((40:ℤ),(100:ℤ)), ((40:ℤ),(110:ℤ))] : List Cell).length + 1 ∧
    ([((60:ℤ),(100:ℤ)), ((50:ℤ),(100:ℤ)), ((40:ℤ),(100:ℤ)), ((40:ℤ),(110:ℤ))] :
        List Cell).headI
      = (((60:ℤ),(100:ℤ)) : Cell) :=
  (tick_eat_grows_by_one
      ⟨[((50:ℤ),(100:ℤ)), ((40:ℤ),(100:ℤ)), ((40:ℤ),(110:ℤ))], ((60:ℤ),(100:ℤ)),
        Direction.RIGHT⟩
      (fun _ => ((0:ℤ),(30:ℤ))) 1
      ⟨[((60:ℤ),(100:ℤ)), ((50:ℤ),(100:ℤ)), ((40:ℤ),(100:ℤ)), ((40:ℤ),(110:ℤ))],
        ((0:ℤ),(30:ℤ)), Direction.RIGHT⟩
      false (by decide) (by decide) (by decide) (by decide) (by decide)
      (by decide)).1 rfl

/-- C5 (counterexample): `initialize_snake` with the default size 3 and the
draw `(0, 3)` produces three IDENTICAL cells stacked at `(0, 30)`, so the
pairwise-distinctness part of the claim is already false immediately after
initialization (the draw is within the `randint` ranges). -/
theorem initialize_snake_stacked_cex :
    initialize_snake 10 250 200 3 0 30 0 3
      = [((0:ℤ),(30:ℤ)), ((0:ℤ),(30:ℤ)), ((0:ℤ),(30:ℤ))] ∧
    ¬ (initialize_snake 10 250 200 3 0 30 0 3).Nodup ∧
    rand_in_range 10 250 200 0 30 0 3 := by
  refine ⟨by decide, by decide, by unfold rand_in_range; decide⟩

/-- C5 (amended): immediately after initialization the snake has exactly
`size` cells (so the length part of the claim holds, with equality), but all
of them repeat the one sampled start position: the body is duplicate-free iff
`size ≤ 1`, hence never for the default size 3. -/
theorem initialize_snake_stacked (cellSize width height : ℤ) (size : ℕ)
    (minX minY r1 r2 : ℤ) :
    (initialize_snake cellSize width height size minX minY r1 r2).length = size ∧
    ((initialize_snake cellSize width height size minX minY r1 r2).Nodup ↔ size ≤ 1) := by
  constructor
  · simp [initialize_snake]
  · simp [initialize_snake, List.nodup_replicate]

/-- C6 (counterexample): a lost-restart where both fresh draws hit `(0, 30)`
(draws within the `randint` ranges) and 5 seconds had been spent paused before
the loss: the fresh apple lies ON the snake (the restart branch has no overlap
check), and the elapsed time read immediately after the restart is `-5`, not
0, because lines 590-604 never reset `total_paused_time`. -/
theorem restart_from_lost_cex :
    (restart_from_lost 0 3 0 3 100 5).state.apple
        ∈ (restart_from_lost 0 3 0 3 100 5).state.snake ∧
    elapsed_time 100 (restart_from_lost 0 3 0 3 100 5).startTime
        (restart_from_lost 0 3 0 3 100 5).totalPaused = -5 ∧
    (restart_from_lost 0 3 0 3 100 5).state.snake.length = 3 ∧
    rand_in_range 10 250 200 0 30 0 3 := by
  refine ⟨by decide, by decide, by decide, by unfold rand_in_range; decide⟩

/-- C6 (amended): a restart from the lost screen always starts a snake of
length 3 and resets the session start to the current clock, but it keeps the
old cumulative paused duration, so the elapsed time shown immediately after
the restart is minus that duration (zero only when nothing was ever paused);
the fresh apple is drawn with no overlap check against the snake. -/
theorem restart_from_lost_spec (r1 r2 r3 r4 now tp : ℤ) :
    (restart_from_lost r1 r2 r3 r4 now tp).state.snake.length = 3 ∧
    (restart_from_lost r1 r2 r3 r4 now tp).startTime = now ∧
    (restart_from_lost r1 r2 r3 r4 now tp).totalPaused = tp ∧
    elapsed_time now (restart_from_lost r1 r2 r3 r4 now tp).startTime
        (restart_from_lost r1 r2 r3 r4 now tp).totalPaused = -tp := by
  refine ⟨?_, rfl, rfl, ?_⟩
  · simp [restart_from_lost, initialize_snake, snake_initial_size]
  · show now - now - tp = -tp
    omega

/-- C8 (counterexample): a valid start head `(20, 40)` (reachable from the
draw `(2, 4)`) is strictly closest to the TOP arena edge (arena distance 10,
against 20/160/230 for the other sides), so per the claim the initial
direction must be DOWN; the source measures the distance to the top of the
WINDOW, ignoring the 30px status bar, and returns RIGHT. -/
theorem initial_direction_window_cex :
    (((20:ℤ),(40:ℤ)) : Cell) ∈ grid_cells ∧
    generate_random_position 10 250 200 0 30 2 4 = (((20:ℤ),(40:ℤ)) : Cell) ∧
    rand_in_range 10 250 200 0 30 2 4 ∧
    arena_distance 20 40 Direction.UP < arena_distance 20 40 Direction.DOWN ∧
    arena_distance 20 40 Direction.UP < arena_distance 20 40 Direction.LEFT ∧
    arena_distance 20 40 Direction.UP < arena_distance 20 40 Direction.RIGHT ∧
    initial_direction_spec 20 40 = Direction.DOWN ∧
    initial_direction 20 40 window_width window_height = Direction.RIGHT := by
  refine ⟨by decide, by decide, by unfold rand_in_range; decide, by decide,
    by decide, by decide, by decide, by decide⟩

/-- C8 (amended): the initial direction is the opposite of a side whose
distance to the corresponding WINDOW edge (status bar included in the UP
distance) is minimal, ties broken in the order UP, DOWN, LEFT, RIGHT. -/
theorem initial_direction_min_window (hx hy : ℤ) :
    ∃ s, initial_direction hx hy window_width window_height = opposite s ∧
      window_distance hx hy s ≤ window_distance hx hy Direction.UP ∧
      window_distance hx hy s ≤ window_distance hx hy Direction.DOWN ∧
      window_distance hx hy s ≤ window_distance hx hy Direction.LEFT ∧
      window_distance hx hy s ≤ window_distance hx hy Direction.RIGHT := by
  simp only [initial_direction, py_min_fold, List.foldl_cons, List.foldl_nil,
    window_width, window_height]
  split_ifs <;>
    refine ⟨_, rfl, ?_, ?_, ?_, ?_⟩ <;>
      simp only [window_distance, window_width, window_height] at * <;> omega

/-- C9 (counterexample): the occupancy set `{(10, 30)}` leaves free grid
cells (for instance `(0, 30)`), yet the relocation loop run with a sample
stream that keeps proposing the occupied cell `(10, 30)` never returns,
whatever fuel it is given: rejection sampling does not terminate for every
possible sample sequence. -/
theorem relocation_can_spin_cex :
    (((0:ℤ),(30:ℤ)) : Cell) ∈ grid_cells ∧
    (((0:ℤ),(30:ℤ)) : Cell) ∉ ([((10:ℤ),(30:ℤ))] : List Cell) ∧
    ¬ ∃ fuel c,
        relocate_apple [((10:ℤ),(30:ℤ))] (fun _ => ((10:ℤ),(30:ℤ))) 0 fuel = some c := by
  refine ⟨by decide, by decide, ?_⟩
  rintro ⟨fuel, c, h⟩
  rw [relocate_apple_const_none
    [((10:ℤ),(30:ℤ))] ((10:ℤ),(30:ℤ)) (by decide) fuel 0] at h
  exact Option.noConfusion h

/-- C9 (amended): the relocation loop terminates (returning a cell off the
occupancy set) for every occupancy set and every sample stream that
eventually proposes some free cell - in particular with probability 1 under
uniform sampling whenever at least one grid cell is free - but not for every
stream, see the counterexample. -/
theorem relocate_apple_terminates (snake : List Cell) (stream : ℕ → Cell) (n : ℕ)
    (hfree : stream n ∉ snake) :
    ∃ fuel c, relocate_apple snake stream 0 fuel = some c ∧ c ∉ snake :=
  relocate_apple_some_aux snake stream n 0 (by simpa using hfree)

/-- C9 (witness): one occupied cell, a stream that immediately proposes the
free cell `(0, 30)`. -/
theorem relocate_apple_terminates_witness :
    ∃ fuel c,
      relocate_apple [((10:ℤ),(30:ℤ))] (fun _ => ((0:ℤ),(30:ℤ))) 0 fuel = some c ∧
      c ∉ ([((10:ℤ),(30:ℤ))] : List Cell) :=
  relocate_apple_terminates [((10:ℤ),(30:ℤ))] (fun _ => ((0:ℤ),(30:ℤ))) 0 (by decide)
